import Mathlib

/-!
Verification development for the DSA_Journey repository's
Visualizer_project (app.py, visualizer.py, memory_visualizer.py,
tree_visualizer.py).

The embedding models:
* the Python abstract syntax tree fragment exercised by the claims
  (constructor fields follow the corresponding `ast` node classes;
  omitted fields such as expression contexts, decorator lists and
  keyword arguments are noted at the constructor);
* `analyze_complexity` (app.py);
* `CodeVisualizer.instrument_code` / `MemoryVisualizer._instrument_code`
  (textual, line-based instrumentation, modelled over lists of
  characters so that Python's `str.split` / `str.strip` behaviour on
  ASCII text is reproduced exactly);
* the value-formatting step of `CodeVisualizer.trace_var` and
  `MemoryVisualizer.record_memory`;
* `TreeVisualizer.generate_ast_tree` / `_parse_ast_node`;
* a line-level executor for the straight-line fragment of instrumented
  programs, giving `visualize_execution` / `visualize_memory` semantics
  on that fragment.
-/

namespace DSA

/-! ## Text utilities (ASCII fragment of Python's str operations) -/

/-- A physical line (or any piece of source text) as a list of characters. -/
abbrev Line := List Char

/-- Python `str.strip()` whitespace test, for ASCII text. -/
def pyIsSpace (c : Char) : Bool :=
  c = ' ' || c = '\t' || c = '\n' || c = '\r' || c = '\x0b' || c = '\x0c'

/-- Python `str.strip()`: drop leading and trailing whitespace. -/
def pyStrip (l : Line) : Line :=
  ((l.dropWhile pyIsSpace).reverse.dropWhile pyIsSpace).reverse

/-- Python `str.startswith`: `beginsWith s p` is true when `p` is an initial
segment of `s`. -/
def beginsWith (s p : Line) : Bool :=
  match p with
  | [] => true
  | q :: qs =>
    match s with
    | [] => false
    | c :: cs => c = q && beginsWith cs qs

/-- Python `sep in str` membership test for a single character. -/
def containsC (l : Line) (c : Char) : Bool := l.contains c

/-- Python `str.split(sep)` for a one-character separator. -/
def splitOnC (sep : Char) : Line → List Line
  | [] => [[]]
  | c :: cs =>
    if c = sep then [] :: splitOnC sep cs
    else
      match splitOnC sep cs with
      | [] => [[c]]
      | l :: ls => (c :: l) :: ls

/-- Python `str.split('\n')`. -/
def splitLines (code : Line) : List Line := splitOnC '\n' code

/-- Python `sep.join(lines)` for a one-character separator. -/
def joinSep (sep : Char) : List Line → Line
  | [] => []
  | [l] => l
  | l :: l2 :: ls => l ++ sep :: joinSep sep (l2 :: ls)

/-- Python `'\n'.join(lines)`. -/
def joinLines (lines : List Line) : Line := joinSep '\n' lines

/-! ## The Python abstract syntax tree fragment -/

/-- The fragment of Python's `ast` node classes exercised by the claims.
Fields follow the grammar's field order.  Omitted (claim-irrelevant)
fields: expression contexts (`ctx`), `type_ignores`, decorator lists,
return annotations, keyword arguments, comparison/operator tags.
`Constant` carries the textual `repr` of its value, which is all the
analysed code ever reads from it.  `ListLit`/`DictLit`/`SetLit` model
`ast.List`/`ast.Dict`/`ast.Set` (renamed to avoid clashing with Lean's
`List`). -/
inductive AST : Type where
  | Module (body : List AST)
  | FunctionDef (name : String) (args : AST) (body : List AST)
  | arguments (args : List AST) (defaults : List AST)
  | arg (argName : String)
  | For (target : AST) (iter : AST) (body : List AST) (orelse : List AST)
  | While (test : AST) (body : List AST) (orelse : List AST)
  | Call (func : AST) (args : List AST)
  | Name (id : String)
  | Attribute (value : AST) (attr : String)
  | ListLit (elts : List AST)
  | DictLit (keys : List AST) (values : List AST)
  | SetLit (elts : List AST)
  | ListComp (elt : AST) (generators : List AST)
  | DictComp (key : AST) (value : AST) (generators : List AST)
  | SetComp (elt : AST) (generators : List AST)
  | comprehension (target : AST) (iter : AST) (ifs : List AST)
  | Assign (targets : List AST) (value : AST)
  | Expr (value : AST)
  | Constant (reprValue : String)
  | Pass

mutual

/-- `ast.walk`: every node of the tree, root included.  The Python
original enumerates nodes breadth-first; every aggregate computed by
`analyze_complexity` is order-independent (the loop stack is never
popped, so its maximum length is the total loop count), so a preorder
enumeration is used. -/
def AST.walk : AST → List AST
  | .Module body => .Module body :: AST.walkList body
  | .FunctionDef name args body =>
      .FunctionDef name args body :: (AST.walk args ++ AST.walkList body)
  | .arguments args defaults =>
      .arguments args defaults :: (AST.walkList args ++ AST.walkList defaults)
  | .arg n => [.arg n]
  | .For target iter body orelse =>
      .For target iter body orelse ::
        (AST.walk target ++ AST.walk iter ++ AST.walkList body ++ AST.walkList orelse)
  | .While test body orelse =>
      .While test body orelse ::
        (AST.walk test ++ AST.walkList body ++ AST.walkList orelse)
  | .Call func args => .Call func args :: (AST.walk func ++ AST.walkList args)
  | .Name id => [.Name id]
  | .Attribute value attr => .Attribute value attr :: AST.walk value
  | .ListLit elts => .ListLit elts :: AST.walkList elts
  | .DictLit keys values =>
      .DictLit keys values :: (AST.walkList keys ++ AST.walkList values)
  | .SetLit elts => .SetLit elts :: AST.walkList elts
  | .ListComp elt generators =>
      .ListComp elt generators :: (AST.walk elt ++ AST.walkList generators)
  | .DictComp key value generators =>
      .DictComp key value generators ::
        (AST.walk key ++ AST.walk value ++ AST.walkList generators)
  | .SetComp elt generators =>
      .SetComp elt generators :: (AST.walk elt ++ AST.walkList generators)
  | .comprehension target iter ifs =>
      .comprehension target iter ifs ::
        (AST.walk target ++ AST.walk iter ++ AST.walkList ifs)
  | .Assign targets value =>
      .Assign targets value :: (AST.walkList targets ++ AST.walk value)
  | .Expr value => .Expr value :: AST.walk value
  | .Constant v => [.Constant v]
  | .Pass => [.Pass]

/-- `AST.walk` over each element of a list of sibling nodes. -/
def AST.walkList : List AST → List AST
  | [] => []
  | t :: ts => AST.walk t ++ AST.walkList ts

end

/-! ## `analyze_complexity` (app.py lines 68-164) -/

/-- The report produced by `analyze_complexity`. -/
structure Analysis where
  time_complexity : String
  space_complexity : String
  issues : List String
  recommendations : List String
deriving DecidableEq

/-- The user-defined function names collected by the first `ast.walk`
pass of `analyze_complexity` (app.py lines 87-90). -/
def function_names (tree : AST) : List String :=
  tree.walk.filterMap fun n =>
    match n with
    | .FunctionDef name _ _ => some name
    | _ => none

/-- The mutable counters of the analysis walk (app.py lines 80-84).
`loop_count` is `len(loop_stack)`: the stack only ever grows, so its
length is all that matters. -/
structure Counters where
  loop_count : Nat
  max_loop_depth : Nat
  recursive_calls : Nat
  function_calls : List (String × Nat)
  ds_list : Nat
  ds_dict : Nat
  ds_set : Nat
deriving DecidableEq

/-- The counters before the walk starts. -/
def initCounters : Counters :=
  { loop_count := 0, max_loop_depth := 0, recursive_calls := 0
    function_calls := [], ds_list := 0, ds_dict := 0, ds_set := 0 }

/-- `function_calls[func_name] = function_calls.get(func_name, 0) + 1`
on an insertion-ordered association list (Python dict semantics). -/
def bumpCall : List (String × Nat) → String → List (String × Nat)
  | [], f => [(f, 1)]
  | (g, k) :: rest, f =>
    if g = f then (g, k + 1) :: rest else (g, k) :: bumpCall rest f

/-- `loop_stack.append(node); max_loop_depth = max(max_loop_depth,
len(loop_stack))` (app.py lines 96-97). -/
def pushLoop (c : Counters) : Counters :=
  { c with loop_count := c.loop_count + 1
           max_loop_depth := max c.max_loop_depth (c.loop_count + 1) }

/-- One iteration of the analysis walk's body (app.py lines 93-124):
the loop/call `if/elif` chain followed by the data-structure counting
`if` chain. -/
def visit (fns : List String) (c : Counters) (node : AST) : Counters :=
  let c1 :=
    match node with
    | .For _ _ _ _ => pushLoop c
    | .While _ _ _ => pushLoop c
    | .Call func _ =>
        let c2 :=
          match func with
          | .Name id =>
              if fns.contains id then
                { c with recursive_calls := c.recursive_calls + 1 }
              else c
          | _ => c
        let func_name :=
          match func with
          | .Name id => id
          | .Attribute _ attr => attr
          | _ => "unknown"
        { c2 with function_calls := bumpCall c2.function_calls func_name }
    | _ => c
  match node with
  | .ListLit _ => { c1 with ds_list := c1.ds_list + 1 }
  | .DictLit _ _ => { c1 with ds_dict := c1.ds_dict + 1 }
  | .SetLit _ => { c1 with ds_set := c1.ds_set + 1 }
  | .ListComp _ _ => { c1 with ds_list := c1.ds_list + 1 }
  | .DictComp _ _ _ => { c1 with ds_dict := c1.ds_dict + 1 }
  | .SetComp _ _ => { c1 with ds_set := c1.ds_set + 1 }
  | _ => c1

/-- The counters after the full analysis walk. -/
def countersOf (tree : AST) : Counters :=
  tree.walk.foldl (visit (function_names tree)) initCounters

/-- The `sort`/`sorted` post-pass step (app.py lines 141-144), applied
to one `(func, count)` item of `function_calls`. -/
def sortStep (a : Analysis) (fc : String × Nat) : Analysis :=
  if fc.1 = "sort" ∨ fc.1 = "sorted" then
    { a with
      time_complexity :=
        if a.time_complexity = "O(1)" then "O(n log n)"
        else a.time_complexity ++ " + O(n log n)"
      issues := a.issues ++
        ["Using " ++ fc.1 ++ " adds O(n log n) time complexity"] }
  else a

/-- The time-complexity classification from the walk's counters, first
match wins (app.py lines 126-138), together with the initial `'O(1)'`
space label and the issue/recommendation lists accumulated so far. -/
def baseAnalysis (c : Counters) : Analysis :=
  if c.recursive_calls > 0 then
    { time_complexity := "O(2^n)"
      space_complexity := "O(1)"
      issues := ["Recursive calls may lead to exponential time complexity"]
      recommendations := ["Consider using iterative approaches or memoization"] }
  else if c.max_loop_depth > 1 then
    { time_complexity := "O(n^" ++ Nat.repr c.max_loop_depth ++ ")"
      space_complexity := "O(1)"
      issues := ["Nested loops (depth " ++ Nat.repr c.max_loop_depth ++
                 ") can lead to polynomial time complexity"]
      recommendations := ["Consider optimizing with more efficient algorithms"] }
  else if c.max_loop_depth = 1 then
    { time_complexity := "O(n)", space_complexity := "O(1)"
      issues := [], recommendations := [] }
  else
    { time_complexity := "O(1)", space_complexity := "O(1)"
      issues := [], recommendations := [] }

/-- The space-complexity determination (app.py lines 146-155): the
`total_structures > 3` branch, the `'list' in data_structures or ...`
branch (a kind's key exists exactly when its counter is positive), and
the `'O(1)'` fallback. -/
def applySpace (c : Counters) (a : Analysis) : Analysis :=
  if c.ds_list + c.ds_dict + c.ds_set > 3 then
    { a with
      space_complexity := "O(n)"
      issues := a.issues ++
        ["Multiple data structures may increase space complexity"]
      recommendations := a.recommendations ++
        ["Consider reusing data structures or streaming data"] }
  else if c.ds_list > 0 ∨ c.ds_dict > 0 ∨ c.ds_set > 0 then
    { a with space_complexity := "O(n)" }
  else
    { a with space_complexity := "O(1)" }

/-- The successful branch of `analyze_complexity` (app.py lines 71-157):
walk-derived counters, time classification, the `sort`/`sorted`
post-pass over the `function_calls` items in insertion order, then the
space determination. -/
def analyze (tree : AST) : Analysis :=
  let c := countersOf tree
  applySpace c (c.function_calls.foldl sortStep (baseAnalysis c))

/-- `analyze_complexity` including its `try/except` boundary: `ast.parse`
(which is the standard library's parser, outside this repository) is
modelled by the `Except` input — `.ok tree` for a source that parses to
`tree`, `.error e` for a parse failure whose `str(e)` is `e`.  The
exception handler (app.py lines 158-164) yields the degraded report;
no exception escapes the function. -/
def analyze_complexity : Except String AST → Analysis
  | .ok tree => analyze tree
  | .error e =>
      { time_complexity := "Unknown"
        space_complexity := "Unknown"
        issues := ["Analysis error: " ++ e]
        recommendations := ["Check syntax errors"] }

/-! ## Concrete syntax trees used by the claims -/

/-- `ast.parse("for i in range(3):\n    print(i)")`. -/
def forPrintTree : AST :=
  .Module [.For (.Name "i") (.Call (.Name "range") [.Constant "3"])
             [.Expr (.Call (.Name "print") [.Name "i"])] []]

/-- `ast.parse` of two sequential, non-nested `for` loops
(`for i in range(3):\n    pass\nfor j in range(3):\n    pass`). -/
def seqLoopsTree : AST :=
  .Module [.For (.Name "i") (.Call (.Name "range") [.Constant "3"]) [.Pass] [],
           .For (.Name "j") (.Call (.Name "range") [.Constant "3"]) [.Pass] []]

/-- `ast.parse("x = [1,2,3]\nx.sort()")`. -/
def sortTree : AST :=
  .Module [.Assign [.Name "x"] (.ListLit [.Constant "1", .Constant "2", .Constant "3"]),
           .Expr (.Call (.Attribute (.Name "x") "sort") [])]

/-- `ast.parse("def f():\n    f()")`: a directly recursive function. -/
def recTree : AST :=
  .Module [.FunctionDef "f" (.arguments [] []) [.Expr (.Call (.Name "f") [])]]

/-- `ast.parse("def f():\n    f()\n    sorted(a)")`: a recursive function
that also calls `sorted`. -/
def recSortTree : AST :=
  .Module [.FunctionDef "f" (.arguments [] [])
             [.Expr (.Call (.Name "f") []),
              .Expr (.Call (.Name "sorted") [.Name "a"])]]

/-! ## Source instrumenters (visualizer.py lines 51-79,
memory_visualizer.py lines 63-94) -/

/-- Decimal rendering of a line number, as Python's f-string does. -/
def natText (n : Nat) : Line := Nat.toDigits 10 n

/-- The injected line `__trace_line__(N)` (visualizer.py line 60). -/
def tlText (n : Nat) : Line :=
  "__trace_line__(".data ++ natText n ++ ")".data

/-- The injected line `__trace_var__("name", name)` (visualizer.py line 69). -/
def tvText (name : Line) : Line :=
  "__trace_var__(\"".data ++ name ++ "\", ".data ++ name ++ ")".data

/-- The injected line `__memory_tracker__.take_snapshot(N)`
(memory_visualizer.py lines 72 and 92). -/
def snapText (n : Nat) : Line :=
  "__memory_tracker__.take_snapshot(".data ++ natText n ++ ")".data

/-- The injected line `__record_memory__("name", name)`
(memory_visualizer.py line 81). -/
def rmText (name : Line) : Line :=
  "__record_memory__(\"".data ++ name ++ "\", ".data ++ name ++ ")".data

/-- Negation of `line.strip() and not line.strip().startswith('#')`:
lines that pass through uninstrumented (visualizer.py line 58). -/
def blankOrComment (l : Line) : Bool :=
  (pyStrip l).isEmpty || beginsWith (pyStrip l) "#".data

/-- The candidate assignment-target extraction shared by both
instrumenters (visualizer.py lines 63-68, memory_visualizer.py lines
75-80): the `'=' in line and not strip().startswith('def ')` guard, the
`len(parts) >= 2` check on `line.split('=')`, and the bracket heuristic
on the stripped text left of the first `=`.  The source repeats the
`def ` test inside the bracket check; the repeat is kept (it is a no-op). -/
def assignTarget (l : Line) : Option Line :=
  if containsC l '=' && !(beginsWith (pyStrip l) "def ".data) then
    let parts := splitOnC '=' l
    if 2 ≤ parts.length then
      let var_name := pyStrip (parts.headD [])
      if !(containsC var_name '(' || containsC var_name '[' || containsC var_name '{')
          && !(beginsWith (pyStrip l) "def ".data) then
        some var_name
      else none
    else none
  else none

/-- The per-line loop of `CodeVisualizer.instrument_code` (visualizer.py
lines 57-77), producing the instrumented line list. -/
def instrLines : List Line → Nat → List Line
  | [], _ => []
  | line :: rest, n =>
    (if !(blankOrComment line) then
      [tlText n] ++
        (match assignTarget line with
         | some v => [tvText v]
         | none => []) ++ [line]
     else [line]) ++ instrLines rest (n + 1)

/-- `CodeVisualizer.instrument_code`: split on newlines, instrument,
rejoin (visualizer.py lines 51-79). -/
def instrument_code (code : Line) : Line :=
  joinLines (instrLines (splitLines code) 1)

/-- The per-line loop of `MemoryVisualizer._instrument_code`
(memory_visualizer.py lines 69-89). -/
def memInstrLines : List Line → Nat → List Line
  | [], _ => []
  | line :: rest, n =>
    (if !(blankOrComment line) then
      [snapText n] ++
        (match assignTarget line with
         | some v => [rmText v]
         | none => []) ++ [line]
     else [line]) ++ memInstrLines rest (n + 1)

/-- `MemoryVisualizer._instrument_code`: as the execution variant, plus
the final `take_snapshot(line_no)` marker appended after the loop, where
`line_no` has reached the line count plus one (memory_visualizer.py
lines 63-94). -/
def memory_instrument_code (code : Line) : Line :=
  let lines := splitLines code
  joinLines (memInstrLines lines 1 ++ [snapText (lines.length + 1)])

/-- A stripped line's last character is `:` (a compound-statement
header such as `for ...:`). -/
def endsWithColon (l : Line) : Bool :=
  match (pyStrip l).getLast? with
  | some c => c = ':'
  | none => false

/-- The line starts at column 0 with a non-whitespace character. -/
def unindented (l : Line) : Bool :=
  match l with
  | [] => false
  | c :: _ => !(pyIsSpace c)

/-- Some code line ending in `:` is immediately followed by an
unindented code line — the shape Python's compiler rejects with
`IndentationError: expected an indented block`. -/
def hasUnindentedBlockFollower : List Line → Bool
  | [] => false
  | [_] => false
  | a :: b :: rest =>
    (endsWithColon a && unindented b && !(blankOrComment b)) ||
      hasUnindentedBlockFollower (b :: rest)

/-! ## Tree serializer (tree_visualizer.py lines 8-69) -/

/-- The serialized tree node built by `TreeVisualizer._parse_ast_node`:
the dict keys `id`, `type`, `depth`, the optional type-specific extras
`name` / `func` / `target` / `value`, the `field` tag stamped on a child
by its parent, and the ordered child list.  The optional `lineno` key is
not modelled (the modelled syntax trees carry no line numbers; no claim
touches it). -/
inductive TreeNode : Type where
  | mk (id : Nat) (type : String) (depth : Nat)
       (name : Option String) (func : Option String)
       (target : Option String) (value : Option String)
       (field : Option String) (children : List TreeNode)

/-- The `id` assigned from the traversal counter. -/
def TreeNode.id : TreeNode → Nat
  | .mk i _ _ _ _ _ _ _ _ => i

/-- The node-type tag (the Python class name). -/
def TreeNode.type : TreeNode → String
  | .mk _ ty _ _ _ _ _ _ _ => ty

/-- The traversal depth. -/
def TreeNode.depth : TreeNode → Nat
  | .mk _ _ d _ _ _ _ _ _ => d

/-- The `name` extra (for `Name` and `FunctionDef` nodes). -/
def TreeNode.name : TreeNode → Option String
  | .mk _ _ _ n _ _ _ _ _ => n

/-- The `func` extra (for `Call` nodes with a simple-name callee). -/
def TreeNode.func : TreeNode → Option String
  | .mk _ _ _ _ f _ _ _ _ => f

/-- The `target` extra (for `Assign` nodes with a simple first target). -/
def TreeNode.target : TreeNode → Option String
  | .mk _ _ _ _ _ t _ _ _ => t

/-- The `value` extra (for `Constant` nodes: `repr` of the constant). -/
def TreeNode.value : TreeNode → Option String
  | .mk _ _ _ _ _ _ v _ _ => v

/-- The grammatical-role tag stamped by the parent (`child_node['field']`). -/
def TreeNode.field : TreeNode → Option String
  | .mk _ _ _ _ _ _ _ f _ => f

/-- The ordered child list. -/
def TreeNode.children : TreeNode → List TreeNode
  | .mk _ _ _ _ _ _ _ _ c => c

/-- `child_node['field'] = field` (tree_visualizer.py lines 62 and 66). -/
def TreeNode.setField (t : TreeNode) (f : String) : TreeNode :=
  match t with
  | .mk i ty d n fu ta v _ c => .mk i ty d n fu ta v (some f) c

mutual

/-- Number of structural nodes in a serialized tree. -/
def TreeNode.size : TreeNode → Nat
  | .mk _ _ _ _ _ _ _ _ children => 1 + TreeNode.sizeList children

/-- Total `TreeNode.size` over a child list. -/
def TreeNode.sizeList : List TreeNode → Nat
  | [] => 0
  | t :: ts => TreeNode.size t + TreeNode.sizeList ts

end

mutual

/-- `TreeVisualizer._parse_ast_node` (tree_visualizer.py lines 17-69)
with the mutable `self.node_id` counter threaded explicitly: on entry
the counter is incremented and becomes the node's id, then children are
serialized in `ast.iter_fields` order (single-node fields and
list-valued fields, non-AST values skipped).  The plain-data branch for
non-AST arguments (lines 19-26) is unreachable from
`generate_ast_tree`, because the recursion only ever descends into
values that are AST nodes. -/
def parseNode : AST → Nat → Nat → TreeNode × Nat
  | .Module body, d, cnt =>
      let i := cnt + 1
      let (kids, c2) := parseList "body" body (d + 1) i
      (.mk i "Module" d none none none none none kids, c2)
  | .FunctionDef name args body, d, cnt =>
      let i := cnt + 1
      let (ka, c2) := parseNode args (d + 1) i
      let (kb, c3) := parseList "body" body (d + 1) c2
      (.mk i "FunctionDef" d (some name) none none none none
         (ka.setField "args" :: kb), c3)
  | .arguments args defaults, d, cnt =>
      let i := cnt + 1
      let (k1, c2) := parseList "args" args (d + 1) i
      let (k2, c3) := parseList "defaults" defaults (d + 1) c2
      (.mk i "arguments" d none none none none none (k1 ++ k2), c3)
  | .arg _, d, cnt =>
      (.mk (cnt + 1) "arg" d none none none none none [], cnt + 1)
  | .For target iter body orelse, d, cnt =>
      let i := cnt + 1
      let (kt, c2) := parseNode target (d + 1) i
      let (ki, c3) := parseNode iter (d + 1) c2
      let (kb, c4) := parseList "body" body (d + 1) c3
      let (ko, c5) := parseList "orelse" orelse (d + 1) c4
      (.mk i "For" d none none none none none
         (kt.setField "target" :: ki.setField "iter" :: (kb ++ ko)), c5)
  | .While test body orelse, d, cnt =>
      let i := cnt + 1
      let (kt, c2) := parseNode test (d + 1) i
      let (kb, c3) := parseList "body" body (d + 1) c2
      let (ko, c4) := parseList "orelse" orelse (d + 1) c3
      (.mk i "While" d none none none none none
         (kt.setField "test" :: (kb ++ ko)), c4)
  | .Call func args, d, cnt =>
      let i := cnt + 1
      let fu :=
        match func with
        | .Name id => some id
        | _ => none
      let (kf, c2) := parseNode func (d + 1) i
      let (ka, c3) := parseList "args" args (d + 1) c2
      (.mk i "Call" d none fu none none none (kf.setField "func" :: ka), c3)
  | .Name id, d, cnt =>
      (.mk (cnt + 1) "Name" d (some id) none none none none [], cnt + 1)
  | .Attribute value _, d, cnt =>
      let i := cnt + 1
      let (kv, c2) := parseNode value (d + 1) i
      (.mk i "Attribute" d none none none none none [kv.setField "value"], c2)
  | .ListLit elts, d, cnt =>
      let i := cnt + 1
      let (kids, c2) := parseList "elts" elts (d + 1) i
      (.mk i "List" d none none none none none kids, c2)
  | .DictLit keys values, d, cnt =>
      let i := cnt + 1
      let (k1, c2) := parseList "keys" keys (d + 1) i
      let (k2, c3) := parseList "values" values (d + 1) c2
      (.mk i "Dict" d none none none none none (k1 ++ k2), c3)
  | .SetLit elts, d, cnt =>
      let i := cnt + 1
      let (kids, c2) := parseList "elts" elts (d + 1) i
      (.mk i "Set" d none none none none none kids, c2)
  | .ListComp elt generators, d, cnt =>
      let i := cnt + 1
      let (ke, c2) := parseNode elt (d + 1) i
      let (kg, c3) := parseList "generators" generators (d + 1) c2
      (.mk i "ListComp" d none none none none none (ke.setField "elt" :: kg), c3)
  | .DictComp key value generators, d, cnt =>
      let i := cnt + 1
      let (kk, c2) := parseNode key (d + 1) i
      let (kv, c3) := parseNode value (d + 1) c2
      let (kg, c4) := parseList "generators" generators (d + 1) c3
      (.mk i "DictComp" d none none none none none
         (kk.setField "key" :: kv.setField "value" :: kg), c4)
  | .SetComp elt generators, d, cnt =>
      let i := cnt + 1
      let (ke, c2) := parseNode elt (d + 1) i
      let (kg, c3) := parseList "generators" generators (d + 1) c2
      (.mk i "SetComp" d none none none none none (ke.setField "elt" :: kg), c3)
  | .comprehension target iter ifs, d, cnt =>
      let i := cnt + 1
      let (kt, c2) := parseNode target (d + 1) i
      let (ki, c3) := parseNode iter (d + 1) c2
      let (kf, c4) := parseList "ifs" ifs (d + 1) c3
      (.mk i "comprehension" d none none none none none
         (kt.setField "target" :: ki.setField "iter" :: kf), c4)
  | .Assign targets value, d, cnt =>
      let i := cnt + 1
      let ta :=
        match targets.head? with
        | some (.Name id) => some id
        | _ => none
      let (kt, c2) := parseList "targets" targets (d + 1) i
      let (kv, c3) := parseNode value (d + 1) c2
      (.mk i "Assign" d none none ta none none (kt ++ [kv.setField "value"]), c3)
  | .Expr value, d, cnt =>
      let i := cnt + 1
      let (kv, c2) := parseNode value (d + 1) i
      (.mk i "Expr" d none none none none none [kv.setField "value"], c2)
  | .Constant r, d, cnt =>
      (.mk (cnt + 1) "Constant" d none none none (some r) none [], cnt + 1)
  | .Pass, d, cnt =>
      (.mk (cnt + 1) "Pass" d none none none none none [], cnt + 1)

/-- The `for item in value: if isinstance(item, ast.AST): ...` loop over
one list-valued field (tree_visualizer.py lines 58-63), threading the
id counter left to right and stamping the field tag on each child. -/
def parseList : String → List AST → Nat → Nat → List TreeNode × Nat
  | _, [], _, cnt => ([], cnt)
  | fname, t :: ts, d, cnt =>
      let (node, c2) := parseNode t d cnt
      let (rest, c3) := parseList fname ts d c2
      (node.setField fname :: rest, c3)

end

/-- `TreeVisualizer.generate_ast_tree` (tree_visualizer.py lines 8-15):
parse, then serialize starting from a fresh `node_id = 0` counter at
depth 0; on a parse failure return the one-element error list. -/
def generate_ast_tree : Except String AST → Except (List String) TreeNode
  | .ok tree => .ok (parseNode tree 0 0).1
  | .error e => .error ["AST parsing error: " ++ e]

/-- `ast.parse("42")`: a module whose body is a single constant
expression statement. -/
def module42 : AST := .Module [.Expr (.Constant "42")]

/-! ## Runtime values and the tracers' value formatting
(visualizer.py lines 40-49, memory_visualizer.py lines 27-53) -/

/-- The ASCII apostrophe, used in Python's `repr` of strings and in
`NameError` messages. -/
def apos : Char := Char.ofNat 39

/-- The one-character apostrophe string. -/
def apostr : String := String.mk [apos]

/-- Runtime Python values as the tracers see them: the primitive
scalars checked by `isinstance(value, (int, float, str, bool))`, the
null value, and everything else as an opaque object carrying only its
type name and its `id()` token.  A float carries its `repr` string as
data (floating-point arithmetic is not modelled; the tracers only ever
`repr` it). -/
inductive PyValue : Type where
  | int (n : Int)
  | float (reprStr : String)
  | str (s : String)
  | bool (b : Bool)
  | none
  | object (typeName : String) (idVal : Nat)
deriving DecidableEq

/-- Python `repr` on the modelled values.  String escaping is not
modelled (the repr of a str is quote-content-quote).  The object branch
is dead code in both tracers, which handle non-primitives before ever
calling `repr`; CPython would show the id in hexadecimal there. -/
def pyRepr : PyValue → String
  | .int n => Int.repr n
  | .float r => r
  | .str s => apostr ++ s ++ apostr
  | .bool true => "True"
  | .bool false => "False"
  | .none => "None"
  | .object t i => "<" ++ t ++ " object at " ++ Nat.repr i ++ ">"

/-- `type(value).__name__` on the modelled values. -/
def pyTypeName : PyValue → String
  | .int _ => "int"
  | .float _ => "float"
  | .str _ => "str"
  | .bool _ => "bool"
  | .none => "NoneType"
  | .object t _ => t

/-- The value-formatting step of `CodeVisualizer.trace_var`
(visualizer.py lines 43-46): primitives and `None` by `repr`, anything
else as `<TypeName object at id>` — the id is part of the text. -/
def trace_var_formatted : PyValue → String
  | .object t i => "<" ++ t ++ " object at " ++ Nat.repr i ++ ">"
  | v => pyRepr v

/-- The value-formatting step of `MemoryVisualizer.record_memory`
(memory_visualizer.py lines 42-45): primitives and `None` by `repr`,
anything else as `<TypeName object>` — no id in the text. -/
def record_memory_formatted : PyValue → String
  | .object t _ => "<" ++ t ++ " object>"
  | v => pyRepr v

/-! ## A line-level executor for the straight-line fragment

`exec` of instrumented text is modelled for sources whose every line is
blank, a comment, or a simple integer-literal assignment `name = digits`
at column 0.  On that fragment the instrumented text compiles, and its
execution is exactly a top-to-bottom interpretation of the lines: the
injected markers call the tracer hooks, assignments bind names, and a
`__trace_var__` / `__record_memory__` line whose name is unbound raises
`NameError: name 'x' is not defined`. -/

/-- Python keywords and keyword-like constants: a line `kw = ...` would
be a syntax error, so such names are not identifiers here. -/
def pyKeywords : List Line :=
  [("False").data, ("None").data, ("True").data, ("and").data,
   ("as").data, ("assert").data, ("async").data, ("await").data,
   ("break").data, ("class").data, ("continue").data, ("def").data,
   ("del").data, ("elif").data, ("else").data, ("except").data,
   ("finally").data, ("for").data, ("from").data, ("global").data,
   ("if").data, ("in").data, ("is").data, ("lambda").data,
   ("nonlocal").data, ("not").data, ("or").data, ("pass").data,
   ("raise").data, ("return").data, ("try").data, ("while").data,
   ("with").data, ("yield").data]

/-- A character that may occur in an identifier. -/
def isIdentChar (c : Char) : Bool := c.isAlphanum || c = '_'

/-- A plain (non-keyword) Python identifier. -/
def isIdentifier (l : Line) : Bool :=
  match l with
  | [] => false
  | c :: _ =>
    (c.isAlpha || c = '_') && l.all isIdentChar && !(pyKeywords.contains l)

/-- A non-empty all-digit literal. -/
def isIntLit (l : Line) : Bool := !l.isEmpty && l.all Char.isDigit

/-- Decimal value of an all-digit line. -/
def digitsVal (l : Line) : Nat :=
  l.foldl (fun a c => a * 10 + (c.toNat - 48)) 0

/-- The statement forms occurring in instrumented straight-line
programs. -/
inductive IStmt : Type where
  | skip
  | traceLine (n : Nat)
  | traceVar (name : Line)
  | snapshot (n : Nat)
  | recordMem (name : Line)
  | assign (name : Line) (rhs : Int)
  | other
deriving DecidableEq

/-- Classify one physical line of an instrumented straight-line
program.  Blank and comment lines do nothing; the four injected marker
shapes call their hooks; `name = digits` is a simple assignment;
anything else is outside the modelled fragment. -/
def classifyLine (l : Line) : IStmt :=
  if blankOrComment l then .skip
  else if beginsWith l ("__trace_line__(").data then
    .traceLine (digitsVal ((l.drop ("__trace_line__(").data.length).takeWhile Char.isDigit))
  else if beginsWith l ("__trace_var__(\"").data then
    .traceVar ((l.drop ("__trace_var__(\"").data.length).takeWhile (fun c => c ≠ '"'))
  else if beginsWith l ("__memory_tracker__.take_snapshot(").data then
    .snapshot (digitsVal ((l.drop ("__memory_tracker__.take_snapshot(").data.length).takeWhile Char.isDigit))
  else if beginsWith l ("__record_memory__(\"").data then
    .recordMem ((l.drop ("__record_memory__(\"").data.length).takeWhile (fun c => c ≠ '"'))
  else
    match splitOnC '=' l with
    | [lhs, rhs] =>
      if isIdentifier (pyStrip lhs) && isIntLit (pyStrip rhs) then
        .assign (pyStrip lhs) (Int.ofNat (digitsVal (pyStrip rhs)))
      else .other
    | _ => .other

/-- A source line of the modelled straight-line fragment: blank, a
comment, or a simple integer-literal assignment. -/
def fragmentLine (l : Line) : Bool :=
  blankOrComment l || (classifyLine l matches .assign _ _)

/-- An execution environment: the names the user code can read, as
Python's global dict.  The injected hook names (`__trace_line__`,
`__trace_var__`, `__memory_tracker__`, `__record_memory__`,
`__visualizer__`) are not stored here — the executor interprets the
marker lines directly, so a user name must not collide with them. -/
abbrev Env := List (Line × PyValue)

/-- Dict lookup. -/
def lookupEnv : Env → Line → Option PyValue
  | [], _ => Option.none
  | (y, v) :: rest, x => if y = x then some v else lookupEnv rest x

/-- Dict store (update in place or append). -/
def updateEnv : Env → Line → PyValue → Env
  | [], x, v => [(x, v)]
  | (y, w) :: rest, x, v =>
    if y = x then (y, v) :: rest else (y, w) :: updateEnv rest x v

/-- Substring occurrence test: `containsSub text pat` is true when
`pat` occurs contiguously inside `text` (Python's `pat in text`). -/
def containsSub : Line → Line → Bool
  | [], pat => pat.isEmpty
  | c :: rest, pat => beginsWith (c :: rest) pat || containsSub rest pat

/-- `str(NameError)` for an unbound name: `name 'x' is not defined`. -/
def nameErrorText (x : Line) : Line :=
  ("name ").data ++ apos :: x ++ apos :: (" is not defined").data

/-- The mutable state of `CodeVisualizer` (visualizer.py lines 7-11). -/
structure TState where
  steps : List Line
  line_numbers : List Nat
  variable_states : List (Line × Line)
  current_line : Nat
deriving DecidableEq

/-- `CodeVisualizer` state before execution. -/
def initTState : TState :=
  { steps := [], line_numbers := [], variable_states := [], current_line := 0 }

/-- `CodeVisualizer.trace_line` (visualizer.py lines 34-38). -/
def TState.traceLine (st : TState) (n : Nat) : TState :=
  { st with
    current_line := n
    steps := st.steps ++ [("Executing line ").data ++ natText n]
    line_numbers := st.line_numbers ++ [n] }

/-- `CodeVisualizer.trace_var` (visualizer.py lines 40-49), given the
looked-up value. -/
def TState.traceVar (st : TState) (x : Line) (v : PyValue) : TState :=
  let fv := (trace_var_formatted v).data
  { st with
    steps := st.steps ++
      [("Variable ").data ++ apos :: x ++ apos :: (" = ").data ++ fv]
    variable_states := st.variable_states ++ [(x, fv)] }

/-- `exec` of the instrumented lines against the execution tracer:
top-to-bottom interpretation, stopping at the first raised exception.
A `__memory_tracker__` / `__record_memory__` marker would itself raise
`NameError` here (those names are only bound by the memory variant). -/
def execVis : List Line → Env → TState → Except Line TState
  | [], _, st => .ok st
  | l :: ls, env, st =>
    match classifyLine l with
    | .skip => execVis ls env st
    | .traceLine n => execVis ls env (st.traceLine n)
    | .traceVar x =>
        match lookupEnv env x with
        | some v => execVis ls env (st.traceVar x v)
        | Option.none => .error (nameErrorText x)
    | .snapshot _ => .error (nameErrorText ("__memory_tracker__").data)
    | .recordMem _ => .error (nameErrorText ("__record_memory__").data)
    | .assign x n => execVis ls (updateEnv env x (.int n)) st
    | .other => .error ("unsupported statement outside the modelled fragment").data

/-- The body of `CodeVisualizer.format_steps` (visualizer.py lines
81-97), with the running step index threaded.  After a step containing
"Executing line" whose index is below `len(line_numbers) - 1`, the
whole accumulated variable-state list is re-emitted.  The arrow prefix
is a mojibake byte sequence in the source file; it is rendered here as
an ASCII arrow (no claim reads it). -/
def formatStepsGo (st : TState) : List Line → Nat → List Line
  | [], _ => []
  | step :: rest, i =>
    (("Step ").data ++ natText (i + 1) ++ (": ").data ++ step) ::
      ((if containsSub step ("Executing line").data &&
           decide (i + 1 < st.line_numbers.length) then
          st.variable_states.map
            (fun p => ("  -> ").data ++ p.1 ++ (" = ").data ++ p.2)
        else []) ++ formatStepsGo st rest (i + 1))

/-- `CodeVisualizer.format_steps`. -/
def format_steps (st : TState) : List Line := formatStepsGo st st.steps 0

/-- `CodeVisualizer.visualize_execution` (visualizer.py lines 13-32):
on the modelled fragment `ast.parse` succeeds (and its result is
unused), the instrumented text is executed, and the `except` boundary
converts any exception into the one-element error list. -/
def visualize_execution (code : Line) (env : Env) : List Line :=
  match execVis (instrLines (splitLines code) 1) env initTState with
  | .ok st => format_steps st
  | .error e => [("Visualization error: ").data ++ e]

/-- One variable's record in a memory snapshot (memory_visualizer.py
lines 48-53).  The `address` (`id(value)`) and `size`
(`sys.getsizeof`) entries are process-local artifacts and are not
modelled; no claim reads them. -/
structure VarInfo where
  typeName : String
  value : String
deriving DecidableEq

/-- The mutable state of `MemoryVisualizer` (memory_visualizer.py
lines 6-8). -/
structure MState where
  memory_snapshots : List (Nat × List (Line × VarInfo))
  current_snapshot : List (Line × VarInfo)
deriving DecidableEq

/-- `MemoryVisualizer` state before execution. -/
def initMState : MState := { memory_snapshots := [], current_snapshot := [] }

/-- Dict store for the current snapshot. -/
def updateSnap : List (Line × VarInfo) → Line → VarInfo → List (Line × VarInfo)
  | [], x, v => [(x, v)]
  | (y, w) :: rest, x, v =>
    if y = x then (y, v) :: rest else (y, w) :: updateSnap rest x v

/-- `MemoryVisualizer.record_memory` (memory_visualizer.py lines
27-53), given the looked-up value. -/
def MState.recordMemory (st : MState) (x : Line) (v : PyValue) : MState :=
  let info : VarInfo :=
    { typeName := pyTypeName v, value := record_memory_formatted v }
  { st with current_snapshot := updateSnap st.current_snapshot x info }

/-- `MemoryVisualizer.take_snapshot` (memory_visualizer.py lines
55-61): a copy of the current mapping is appended; the current mapping
is kept (the source never clears it). -/
def MState.takeSnapshot (st : MState) (n : Nat) : MState :=
  { st with memory_snapshots := st.memory_snapshots ++ [(n, st.current_snapshot)] }

/-- `exec` of the instrumented lines against the memory tracker.
A `__trace_line__` / `__trace_var__` marker would itself raise
`NameError` here (those names are only bound by the execution variant). -/
def execMem : List Line → Env → MState → Except Line MState
  | [], _, st => .ok st
  | l :: ls, env, st =>
    match classifyLine l with
    | .skip => execMem ls env st
    | .snapshot n => execMem ls env (st.takeSnapshot n)
    | .recordMem x =>
        match lookupEnv env x with
        | some v => execMem ls env (st.recordMemory x v)
        | Option.none => .error (nameErrorText x)
    | .traceLine _ => .error (nameErrorText ("__trace_line__").data)
    | .traceVar _ => .error (nameErrorText ("__trace_var__").data)
    | .assign x n => execMem ls (updateEnv env x (.int n)) st
    | .other => .error ("unsupported statement outside the modelled fragment").data

/-- `MemoryVisualizer.format_memory_snapshots` (memory_visualizer.py
lines 96-115).  An empty snapshot's branch uses `continue`, skipping
the trailing blank line.  The per-variable line renders name, value
and type; the unmodelled size/address suffix is omitted. -/
def formatMemorySnapshots : List (Nat × List (Line × VarInfo)) → List Line
  | [] => []
  | (n, vars) :: rest =>
    (("Snapshot at line ").data ++ natText n ++ (":").data) ::
      ((if vars.isEmpty then [("  No variables in memory").data]
        else vars.map (fun p =>
            ("  ").data ++ p.1 ++ (": ").data ++ (p.2.value).data ++
              (" (type: ").data ++ (p.2.typeName).data ++ (")").data) ++ [[]]) ++
        formatMemorySnapshots rest)

/-- `MemoryVisualizer.visualize_memory` (memory_visualizer.py lines
10-25): instrument, execute, format; the `except` boundary converts
any exception into the one-element error list. -/
def visualize_memory (code : Line) (env : Env) : List Line :=
  let lines := splitLines code
  match execMem (memInstrLines lines 1 ++ [snapText (lines.length + 1)]) env initMState with
  | .ok st => formatMemorySnapshots st.memory_snapshots
  | .error e => [("Memory visualization error: ").data ++ e]

/-! ## Helper lemmas -/

theorem beginsWith_nil (s : Line) : beginsWith s [] = true := by
  simp [beginsWith]

theorem beginsWith_self_append (p r : Line) : beginsWith (p ++ r) p = true := by
  induction p with
  | nil => simp [beginsWith]
  | cons q qs ih => simp [beginsWith, ih]

theorem splitOnC_ne_nil (sep : Char) (cs : Line) : splitOnC sep cs ≠ [] := by
  induction cs with
  | nil => simp [splitOnC]
  | cons c cs ih =>
    by_cases h : c = sep
    · simp [splitOnC, h]
    · simp only [splitOnC, if_neg h]
      cases hs : splitOnC sep cs with
      | nil => exact absurd hs ih
      | cons l ls => simp

theorem joinSep_splitOnC (sep : Char) (cs : Line) :
    joinSep sep (splitOnC sep cs) = cs := by
  induction cs with
  | nil => simp [splitOnC, joinSep]
  | cons c cs ih =>
    by_cases h : c = sep
    · simp only [splitOnC, if_pos h]
      cases hs : splitOnC sep cs with
      | nil => exact absurd hs (splitOnC_ne_nil sep cs)
      | cons l ls =>
        rw [hs] at ih
        simp [joinSep, ih, h]
    · simp only [splitOnC, if_neg h]
      cases hs : splitOnC sep cs with
      | nil => exact absurd hs (splitOnC_ne_nil sep cs)
      | cons l ls =>
        rw [hs] at ih
        cases ls with
        | nil => simp_all [joinSep]
        | cons l2 ls2 => simp_all [joinSep]

theorem joinLines_splitLines (cs : Line) : joinLines (splitLines cs) = cs :=
  joinSep_splitOnC '\n' cs

theorem splitLines_ne_nil (cs : Line) : splitLines cs ≠ [] :=
  splitOnC_ne_nil '\n' cs

theorem joinSep_append_single (sep : Char) (ls : List Line) (x : Line)
    (h : ls ≠ []) : joinSep sep (ls ++ [x]) = joinSep sep ls ++ sep :: x := by
  induction ls with
  | nil => exact absurd rfl h
  | cons l ls ih =>
    cases ls with
    | nil => simp [joinSep]
    | cons l2 ls2 =>
      have := ih (by simp)
      simp only [List.cons_append] at this ⊢
      simp [joinSep, this]

theorem instrLines_passthrough (ls : List Line) (n : Nat)
    (h : ∀ l ∈ ls, blankOrComment l = true) : instrLines ls n = ls := by
  induction ls generalizing n with
  | nil => rfl
  | cons l ls ih =>
    have hl : blankOrComment l = true := h l (by simp)
    simp [instrLines, hl, ih (n + 1) (fun m hm => h m (by simp [hm]))]

theorem memInstrLines_passthrough (ls : List Line) (n : Nat)
    (h : ∀ l ∈ ls, blankOrComment l = true) : memInstrLines ls n = ls := by
  induction ls generalizing n with
  | nil => rfl
  | cons l ls ih =>
    have hl : blankOrComment l = true := h l (by simp)
    simp [memInstrLines, hl, ih (n + 1) (fun m hm => h m (by simp [hm]))]

theorem instrLines_append (xs ys : List Line) (n : Nat) :
    instrLines (xs ++ ys) n = instrLines xs n ++ instrLines ys (n + xs.length) := by
  induction xs generalizing n with
  | nil => simp [instrLines]
  | cons x xs ih =>
    simp only [List.cons_append, instrLines, List.length_cons,
      List.append_assoc, List.append_eq]
    have h : n + 1 + xs.length = n + (xs.length + 1) := by omega
    rw [ih (n + 1), h]

theorem memInstrLines_append (xs ys : List Line) (n : Nat) :
    memInstrLines (xs ++ ys) n =
      memInstrLines xs n ++ memInstrLines ys (n + xs.length) := by
  induction xs generalizing n with
  | nil => simp [memInstrLines]
  | cons x xs ih =>
    simp only [List.cons_append, memInstrLines, List.length_cons,
      List.append_assoc, List.append_eq]
    have h : n + 1 + xs.length = n + (xs.length + 1) := by omega
    rw [ih (n + 1), h]

theorem instrLines_assign_cons (l x : Line) (rest : List Line) (n : Nat)
    (hl : blankOrComment l = false) (ha : assignTarget l = some x) :
    instrLines (l :: rest) n =
      tlText n :: tvText x :: l :: instrLines rest (n + 1) := by
  simp [instrLines, hl, ha]

theorem memInstrLines_assign_cons (l x : Line) (rest : List Line) (n : Nat)
    (hl : blankOrComment l = false) (ha : assignTarget l = some x) :
    memInstrLines (l :: rest) n =
      snapText n :: rmText x :: l :: memInstrLines rest (n + 1) := by
  simp [memInstrLines, hl, ha]

theorem dropWhile_append_last {p : Char → Bool} (xs : Line) (c : Char)
    (hc : p c = false) : ∃ s, (xs ++ [c]).dropWhile p = s ++ [c] := by
  induction xs with
  | nil => exact ⟨[], by simp [List.dropWhile, hc]⟩
  | cons x xs ih =>
    by_cases hx : p x = true
    · obtain ⟨s, hs⟩ := ih
      exact ⟨s, by simp [List.dropWhile, hx, hs]⟩
    · exact ⟨x :: xs, by simp [List.dropWhile, Bool.of_not_eq_true hx]⟩

theorem pyStrip_cons_of_not_space (c : Char) (l : Line)
    (hc : pyIsSpace c = false) : ∃ t, pyStrip (c :: l) = c :: t := by
  have h1 : (c :: l).dropWhile pyIsSpace = c :: l := by
    simp [List.dropWhile, hc]
  obtain ⟨s, hs⟩ :=
    dropWhile_append_last l.reverse c hc
  refine ⟨s.reverse, ?_⟩
  simp [pyStrip, h1, List.reverse_cons, hs]

theorem blankOrComment_underscore (rest : Line) :
    blankOrComment ('_' :: rest) = false := by
  obtain ⟨t, ht⟩ := pyStrip_cons_of_not_space '_' rest (by decide)
  simp [blankOrComment, ht, beginsWith]

theorem takeWhile_append_of_all {p : Char → Bool} (xs ys : Line)
    (h : ∀ c ∈ xs, p c = true) :
    (xs ++ ys).takeWhile p = xs ++ ys.takeWhile p := by
  induction xs with
  | nil => simp
  | cons x xs ih =>
    have hx : p x = true := h x (by simp)
    simp [List.takeWhile, hx, ih (fun c hc => h c (by simp [hc]))]

theorem identChar_ne_quote (c : Char) (h : isIdentChar c = true) : c ≠ '"' := by
  intro hc
  subst hc
  simp [isIdentChar] at h

/-! ## Classifier predicates and counter lemmas -/

/-- The node is a loop statement (`ast.For` or `ast.While`). -/
def isLoopNode (n : AST) : Bool :=
  match n with
  | .For _ _ _ _ => true
  | .While _ _ _ => true
  | _ => false

/-- The node is a call whose callee is a bare name that matches one of
the collected user-defined function names — exactly the condition under
which `recursive_calls` is incremented (app.py line 100). -/
def isRecCall (fns : List String) (n : AST) : Bool :=
  match n with
  | .Call (.Name id) _ => fns.contains id
  | _ => false

/-- Some call in the tree has a bare-name callee matching a
user-defined function name. -/
def hasRecNameCall (tree : AST) : Bool :=
  tree.walk.any (isRecCall (function_names tree))

/-- Total number of loop (`for`/`while`) statements anywhere in the
tree. -/
def numLoops (tree : AST) : Nat := tree.walk.countP isLoopNode

theorem visit_recursive_calls (fns : List String) (c : Counters) (n : AST) :
    (visit fns c n).recursive_calls =
      c.recursive_calls + (if isRecCall fns n then 1 else 0) := by
  cases n <;> simp [visit, isRecCall, pushLoop]
  case Call func args =>
    cases func <;> simp
    case Name id => split <;> simp

theorem visit_loop_count (fns : List String) (c : Counters) (n : AST) :
    (visit fns c n).loop_count =
      c.loop_count + (if isLoopNode n then 1 else 0) := by
  cases n <;> simp [visit, isLoopNode, pushLoop]
  case Call func args => cases func <;> simp <;> split <;> simp

theorem visit_max_inv (fns : List String) (c : Counters) (n : AST)
    (h : c.max_loop_depth = c.loop_count) :
    (visit fns c n).max_loop_depth = (visit fns c n).loop_count := by
  cases n <;> simp [visit, pushLoop, h, Nat.max_def]
  case Call func args =>
    cases func <;> simp [h] <;> (try (split <;> simp [h]))

theorem foldl_visit_recursive (l : List AST) (fns : List String) (c : Counters) :
    (l.foldl (visit fns) c).recursive_calls =
      c.recursive_calls + l.countP (isRecCall fns) := by
  induction l generalizing c with
  | nil => simp
  | cons n l ih =>
    simp only [List.foldl_cons, ih, visit_recursive_calls, List.countP_cons]
    by_cases h : isRecCall fns n = true <;> simp [h] <;> omega

theorem foldl_visit_loops (l : List AST) (fns : List String) (c : Counters) :
    (l.foldl (visit fns) c).loop_count = c.loop_count + l.countP isLoopNode := by
  induction l generalizing c with
  | nil => simp
  | cons n l ih =>
    simp only [List.foldl_cons, ih, visit_loop_count, List.countP_cons]
    by_cases h : isLoopNode n = true <;> simp [h] <;> omega

theorem foldl_visit_max (l : List AST) (fns : List String) (c : Counters)
    (h : c.max_loop_depth = c.loop_count) :
    (l.foldl (visit fns) c).max_loop_depth =
      (l.foldl (visit fns) c).loop_count := by
  induction l generalizing c with
  | nil => exact h
  | cons n l ih => exact ih _ (visit_max_inv fns c n h)

theorem countersOf_max_eq_numLoops (tree : AST) :
    (countersOf tree).max_loop_depth = numLoops tree := by
  have h := foldl_visit_max tree.walk (function_names tree) initCounters rfl
  rw [countersOf, h, foldl_visit_loops]
  simp [initCounters, numLoops]

theorem recursive_calls_pos_of_hasRecNameCall (tree : AST)
    (h : hasRecNameCall tree = true) : (countersOf tree).recursive_calls > 0 := by
  rw [countersOf, foldl_visit_recursive]
  simp only [initCounters, Nat.zero_add]
  rw [hasRecNameCall, List.any_eq_true] at h
  exact List.countP_pos_iff.mpr h

theorem applySpace_time (c : Counters) (a : Analysis) :
    (applySpace c a).time_complexity = a.time_complexity := by
  unfold applySpace
  split
  · rfl
  · split <;> rfl

theorem o2n_append_ne_o1 (r : String) : "O(2^n)" ++ r ≠ "O(1)" := by
  intro h
  have h2 := congrArg String.data h
  simp [String.data_append] at h2

theorem sortStep_keeps_o2n (a : Analysis) (fc : String × Nat)
    (h : ∃ r, a.time_complexity = "O(2^n)" ++ r) :
    ∃ r, (sortStep a fc).time_complexity = "O(2^n)" ++ r := by
  obtain ⟨r, hr⟩ := h
  unfold sortStep
  split
  · refine ⟨r ++ " + O(n log n)", ?_⟩
    simp only
    rw [if_neg (by rw [hr]; exact o2n_append_ne_o1 r), hr,
      String.append_assoc]
  · exact ⟨r, hr⟩

theorem foldl_sortStep_keeps_o2n (l : List (String × Nat)) (a : Analysis)
    (h : ∃ r, a.time_complexity = "O(2^n)" ++ r) :
    ∃ r, (l.foldl sortStep a).time_complexity = "O(2^n)" ++ r := by
  induction l generalizing a with
  | nil => exact h
  | cons fc l ih => exact ih _ (sortStep_keeps_o2n a fc h)

/-! ## Claim C1 -/

/-- C1, counterexample: the program `def f():\n    f()\n    sorted(a)`
contains a bare-name call (`f()`) matching a user-defined function name,
yet its time label is `"O(2^n) + O(n log n)"`, not `"O(2^n)"` — the
`sort`/`sorted` post-pass appends to the recursion label, so the claim's
"time_complexity is O(2^n)" does not hold for every such input. -/
theorem c1_counterexample :
    hasRecNameCall recSortTree = true ∧
    (analyze recSortTree).time_complexity = "O(2^n) + O(n log n)" ∧
    (analyze recSortTree).time_complexity ≠ "O(2^n)" := by decide

/-- C1, amended: for every input in which some call whose callee is a
bare name matches any user-defined function name collected from the
tree (lexical position irrelevant, so mutual/indirect name collisions
count), the time label starts with `"O(2^n)"` — the recursion check is
applied before the loop-depth check, so no loop structure can change
the leading label; it is exactly `"O(2^n)"` unless a `sort`/`sorted`
call appends `" + O(n log n)"` text. -/
theorem c1_recursion_dominates (tree : AST)
    (h : hasRecNameCall tree = true) :
    ∃ rest, (analyze tree).time_complexity = "O(2^n)" ++ rest := by
  have hrec := recursive_calls_pos_of_hasRecNameCall tree h
  have hbase : (baseAnalysis (countersOf tree)).time_complexity = "O(2^n)" := by
    unfold baseAnalysis
    rw [if_pos hrec]
  obtain ⟨r, hr⟩ := foldl_sortStep_keeps_o2n (countersOf tree).function_calls
    (baseAnalysis (countersOf tree)) ⟨"", by rw [hbase, String.append_empty]⟩
  refine ⟨r, ?_⟩
  simp only [analyze]
  rw [applySpace_time, hr]

/-- C1, witness: the recursive program `def f():\n    f()` satisfies the
hypothesis and its time label starts with `"O(2^n)"`. -/
theorem c1_recursion_dominates_witness :
    hasRecNameCall recTree = true ∧
    (∃ rest, (analyze recTree).time_complexity = "O(2^n)" ++ rest) :=
  ⟨by decide, c1_recursion_dominates recTree (by decide)⟩

/-! ## Claim C2 -/

/-- C2: the loop counter is never decremented, so the `max_loop_depth`
that the classifier reads equals the total number of loop (`for`/`while`)
statements anywhere in the tree — for every input, with or without
recursion; in particular the two-sequential-loop program (which has no
recursive-name call) gets `numLoops = 2` and time label `"O(n^2)"`. -/
theorem c2_loop_counter_counts_all_loops :
    (∀ tree : AST, (countersOf tree).max_loop_depth = numLoops tree) ∧
    hasRecNameCall seqLoopsTree = false ∧
    numLoops seqLoopsTree = 2 ∧
    (analyze seqLoopsTree).time_complexity = "O(n^2)" :=
  ⟨countersOf_max_eq_numLoops, by decide, by decide, by decide⟩

/-! ## Claim C3 -/

/-- C3, counterexample: for `x = [1,2,3]\nx.sort()` the time label is
`"O(n log n)"`, not the claimed `"O(1) + O(n log n)"` — when the time
label is still `"O(1)"` the `sort`/`sorted` step replaces it instead of
concatenating. -/
theorem c3_counterexample :
    (analyze sortTree).time_complexity = "O(n log n)" ∧
    (analyze sortTree).time_complexity ≠ "O(1) + O(n log n)" := by decide

/-- C3, amended: for `x = [1,2,3]\nx.sort()` the attribute call
`x.sort()` is matched against `'sort'` by its attribute name (it is the
single `function_calls` entry), the single data-structure literal puts
the space label on the count-positive `elif` branch (`"O(n)"`), and the
time label becomes `"O(n log n)"` via the replacement branch, because
the initial time was `"O(1)"` (the concatenation branch only fires when
the time label is not `"O(1)"`). -/
theorem c3_sort_scenario :
    (countersOf sortTree).function_calls = [("sort", 1)] ∧
    (countersOf sortTree).ds_list = 1 ∧
    (countersOf sortTree).ds_dict = 0 ∧
    (countersOf sortTree).ds_set = 0 ∧
    (analyze sortTree).space_complexity = "O(n)" ∧
    (analyze sortTree).time_complexity = "O(n log n)" := by decide

/-! ## Claim C4 -/

/-- C4: for every input whose parsing fails, `analyze_complexity`
returns the degraded report — both complexity labels `"Unknown"`, an
issues list whose single entry extends `"Analysis error"` with the
failure text, and the fixed recommendation; the function is total, so
the parse exception never propagates to the caller. -/
theorem c4_parse_failure_degraded (e : String) :
    analyze_complexity (Except.error e) =
      { time_complexity := "Unknown", space_complexity := "Unknown"
        issues := ["Analysis error: " ++ e]
        recommendations := ["Check syntax errors"] } ∧
    (∃ s, "Analysis error: " ++ e = "Analysis error" ++ s) :=
  ⟨rfl, ⟨": " ++ e, by
    rw [show ("Analysis error: " : String) = "Analysis error" ++ ": " from by decide,
      String.append_assoc]⟩⟩

/-- C4, witness: the degraded report at the concrete parse failure of
`print(` (an unbalanced parenthesis). -/
theorem c4_parse_failure_degraded_witness :
    analyze_complexity
        (Except.error "unexpected EOF while parsing (<unknown>, line 1)") =
      { time_complexity := "Unknown", space_complexity := "Unknown"
        issues := ["Analysis error: unexpected EOF while parsing (<unknown>, line 1)"]
        recommendations := ["Check syntax errors"] } ∧
    (∃ s, "Analysis error: unexpected EOF while parsing (<unknown>, line 1)" =
      "Analysis error" ++ s) :=
  c4_parse_failure_degraded "unexpected EOF while parsing (<unknown>, line 1)"

/-! ## Claim C5 -/

/-- C5, counterexample: for the single assignment line `x = 1`, both
instrumenters emit the recording statement between the line marker and
the original line — not after the original line as the claim states. -/
theorem c5_counterexample :
    instrLines [("x = 1").data] 1 =
      [tlText 1, tvText ("x").data, ("x = 1").data] ∧
    instrLines [("x = 1").data] 1 ≠
      [tlText 1, ("x = 1").data, tvText ("x").data] ∧
    memInstrLines [("x = 1").data] 1 =
      [snapText 1, rmText ("x").data, ("x = 1").data] ∧
    memInstrLines [("x = 1").data] 1 ≠
      [snapText 1, ("x = 1").data, rmText ("x").data] := by decide

/-- C5, amended: for every physical line that contains an assignment
operator, whose stripped form does not start with the
function-definition keyword, and whose text left of the first `=`
contains none of `(`, `[`, `{`, both instrumenters insert the
variable-recording statement immediately BEFORE that original line
(directly after the injected line marker), so the recorded value is the
variable's value before the assignment executes. -/
theorem c5_record_inserted_before (pre post : List Line) (l x : Line)
    (hl : blankOrComment l = false) (ha : assignTarget l = some x) :
    instrLines (pre ++ l :: post) 1 =
      instrLines pre 1 ++
        tlText (pre.length + 1) :: tvText x :: l ::
          instrLines post (pre.length + 2) ∧
    memInstrLines (pre ++ l :: post) 1 =
      memInstrLines pre 1 ++
        snapText (pre.length + 1) :: rmText x :: l ::
          memInstrLines post (pre.length + 2) := by
  have h1 : 1 + pre.length = pre.length + 1 := by omega
  constructor
  · rw [instrLines_append, h1,
      instrLines_assign_cons l x post (pre.length + 1) hl ha]
  · rw [memInstrLines_append, h1,
      memInstrLines_assign_cons l x post (pre.length + 1) hl ha]

/-- C5, witness: the amended statement at the one-line program `x = 1`. -/
theorem c5_record_inserted_before_witness :
    blankOrComment ("x = 1").data = false ∧
    assignTarget ("x = 1").data = some ("x").data ∧
    (instrLines ([] ++ ("x = 1").data :: []) 1 =
      instrLines [] 1 ++
        tlText 1 :: tvText ("x").data :: ("x = 1").data :: instrLines [] 2 ∧
    memInstrLines ([] ++ ("x = 1").data :: []) 1 =
      memInstrLines [] 1 ++
        snapText 1 :: rmText ("x").data :: ("x = 1").data :: memInstrLines [] 2) :=
  ⟨by decide, by decide,
    c5_record_inserted_before [] [] ("x = 1").data ("x").data
      (by decide) (by decide)⟩

/-! ## Claim C6 -/

/-- The source text `for i in range(3):\n    print(i)`. -/
def forPrintSrc : Line := ("for i in range(3):\n    print(i)").data

/-- C6: the classifier half of the claim holds (time `"O(n)"`, space
`"O(1)"`), but the tracer half cannot: the instrumenter injects
`__trace_line__(2)` at column 0 between the `for ...:` header and its
indented body, producing text Python's compiler rejects
(`IndentationError: expected an indented block`), while the original
source had no such shape — so `exec` raises and `visualize_execution`
returns the one-element error list instead of line-execution events. -/
theorem c6_instrumentation_breaks_block :
    (analyze forPrintTree).time_complexity = "O(n)" ∧
    (analyze forPrintTree).space_complexity = "O(1)" ∧
    instrLines (splitLines forPrintSrc) 1 =
      [tlText 1, ("for i in range(3):").data,
       tlText 2, ("    print(i)").data] ∧
    hasUnindentedBlockFollower (instrLines (splitLines forPrintSrc) 1) = true ∧
    hasUnindentedBlockFollower (splitLines forPrintSrc) = false := by decide

/-! ## Claim C7 -/

/-- C7: for every input all of whose physical lines are blank or
comments (the empty string included), the execution-variant
instrumenter returns the text unchanged, and the memory-variant
instrumenter returns the text unchanged plus exactly one appended
end-marker line, a `take_snapshot` call whose line number is the
physical line count plus one. -/
theorem c7_blank_comment_passthrough (code : Line)
    (h : ∀ l ∈ splitLines code, blankOrComment l = true) :
    instrument_code code = code ∧
    memory_instrument_code code =
      code ++ '\n' :: snapText ((splitLines code).length + 1) := by
  constructor
  · rw [instrument_code, instrLines_passthrough _ _ h, joinLines_splitLines]
  · simp only [memory_instrument_code]
    rw [memInstrLines_passthrough _ _ h, joinLines,
      joinSep_append_single '\n' _ _ (splitLines_ne_nil code)]
    rw [show joinSep '\n' (splitLines code) = joinLines (splitLines code) from rfl,
      joinLines_splitLines]

/-- C7, witness: the comment-and-blank program `# hi\n\n  # there`
(three physical lines) passes through unchanged; the memory variant
appends exactly `__memory_tracker__.take_snapshot(4)`. -/
theorem c7_blank_comment_passthrough_witness :
    (∀ l ∈ splitLines ("# hi\n\n  # there").data, blankOrComment l = true) ∧
    (instrument_code ("# hi\n\n  # there").data = ("# hi\n\n  # there").data ∧
     memory_instrument_code ("# hi\n\n  # there").data =
       ("# hi\n\n  # there").data ++ '\n' ::
         snapText ((splitLines ("# hi\n\n  # there").data).length + 1)) :=
  ⟨by decide, c7_blank_comment_passthrough ("# hi\n\n  # there").data (by decide)⟩

/-! ## Claim C8 -/

/-- C8, counterexample: the execution tracer formats a non-primitive
value as `<list object at 7>` — the identity token is part of the text —
so "formatted exactly as `<TypeName object>`" fails for
`CodeVisualizer.trace_var` (it holds only for the memory variant). -/
theorem c8_counterexample :
    trace_var_formatted (.object "list" 7) = "<list object at 7>" ∧
    trace_var_formatted (.object "list" 7) ≠ "<list object>" ∧
    record_memory_formatted (.object "list" 7) = "<list object>" := by decide

/-- C8, amended: for every recorded (name, value) pair, an int, float,
str, bool or None value is formatted as its literal representation
(`repr`) by both tracers; any other value is formatted without
dereferencing its internals — as `<TypeName object at id>` by the
execution tracer (the identity token included) and as exactly
`<TypeName object>` by the memory tracer, whose output is independent
of everything but the type name. -/
theorem c8_value_formatting (n : Int) (fr s t : String) (b : Bool) (i j : Nat) :
    trace_var_formatted (.int n) = pyRepr (.int n) ∧
    trace_var_formatted (.float fr) = pyRepr (.float fr) ∧
    trace_var_formatted (.str s) = pyRepr (.str s) ∧
    trace_var_formatted (.bool b) = pyRepr (.bool b) ∧
    trace_var_formatted PyValue.none = pyRepr PyValue.none ∧
    record_memory_formatted (.int n) = pyRepr (.int n) ∧
    record_memory_formatted (.float fr) = pyRepr (.float fr) ∧
    record_memory_formatted (.str s) = pyRepr (.str s) ∧
    record_memory_formatted (.bool b) = pyRepr (.bool b) ∧
    record_memory_formatted PyValue.none = pyRepr PyValue.none ∧
    trace_var_formatted (.object t i) =
      "<" ++ t ++ " object at " ++ Nat.repr i ++ ">" ∧
    record_memory_formatted (.object t i) = "<" ++ t ++ " object>" ∧
    record_memory_formatted (.object t i) = record_memory_formatted (.object t j) :=
  ⟨rfl, rfl, rfl, rfl, rfl, rfl, rfl, rfl, rfl, rfl, rfl, rfl, rfl⟩

/-! ## Claim C9 -/

/-- The serialized tree of `ast.parse("42")`: a three-node chain. -/
def serial42 : TreeNode :=
  .mk 1 "Module" 0 none none none none none
    [.mk 2 "Expr" 1 none none none none (some "body")
      [.mk 3 "Constant" 2 none none none (some "42") (some "value") []]]

/-- C9, counterexample: serializing the source `42` yields three
structural nodes (Module, Expr, Constant), with a Module root that has
one child and no attached value — not "exactly one structural node
carrying '42' with zero children". -/
theorem c9_counterexample :
    generate_ast_tree (Except.ok module42) = Except.ok serial42 ∧
    serial42.size = 3 ∧
    serial42.size ≠ 1 ∧
    serial42.type = "Module" ∧
    serial42.children.length = 1 ∧
    serial42.value = Option.none :=
  ⟨rfl, rfl, by decide, rfl, rfl, rfl⟩

/-- C9, amended: serializing the source `42` yields a three-node chain:
a Module root (id 1, depth 0) containing an Expr node (id 2, depth 1,
field "body") containing a single Constant node (id 3, depth 2, field
"value") that carries the textual value `'42'` and has zero children —
it is the Constant leaf, not the whole serialized tree, that has the
attached value and no children. -/
theorem c9_constant_serialization :
    generate_ast_tree (Except.ok module42) = Except.ok serial42 := rfl

/-! ## Claim C10: executor lemmas -/

theorem classifyLine_skip (l : Line) (h : blankOrComment l = true) :
    classifyLine l = .skip := by
  simp [classifyLine, h]

theorem execVis_skips_blank (pre rest : List Line) (env : Env) (st : TState)
    (h : ∀ p ∈ pre, blankOrComment p = true) :
    execVis (pre ++ rest) env st = execVis rest env st := by
  induction pre with
  | nil => rfl
  | cons p pre ih =>
    rw [List.cons_append, execVis, classifyLine_skip p (h p (by simp))]
    exact ih (fun m hm => h m (by simp [hm]))

theorem execMem_skips_blank (pre rest : List Line) (env : Env) (st : MState)
    (h : ∀ p ∈ pre, blankOrComment p = true) :
    execMem (pre ++ rest) env st = execMem rest env st := by
  induction pre with
  | nil => rfl
  | cons p pre ih =>
    rw [List.cons_append, execMem, classifyLine_skip p (h p (by simp))]
    exact ih (fun m hm => h m (by simp [hm]))

theorem tvText_form (x : Line) :
    tvText x =
      ("__trace_var__(\"").data ++
        (x ++ (("\", ").data ++ (x ++ (")").data))) := by
  rw [tvText]
  simp [List.append_assoc]

theorem tlText_form (n : Nat) :
    tlText n = ("__trace_line__(").data ++ (natText n ++ (")").data) := by
  rw [tlText, List.append_assoc]

theorem snapText_form (n : Nat) :
    snapText n =
      ("__memory_tracker__.take_snapshot(").data ++ (natText n ++ (")").data) := by
  rw [snapText, List.append_assoc]

theorem rmText_form (x : Line) :
    rmText x =
      ("__record_memory__(\"").data ++
        (x ++ (("\", ").data ++ (x ++ (")").data))) := by
  rw [rmText]
  simp [List.append_assoc]

theorem digitChar_isDigit (m : Nat) (h : m < 10) :
    (Nat.digitChar m).isDigit = true := by
  interval_cases m <;> decide

theorem toDigitsCore_digits (fuel : Nat) :
    ∀ (n : Nat) (acc : List Char), (∀ c ∈ acc, c.isDigit = true) →
      ∀ c ∈ Nat.toDigitsCore 10 fuel n acc, c.isDigit = true := by
  induction fuel with
  | zero =>
    intro n acc hacc
    simpa [Nat.toDigitsCore] using hacc
  | succ fuel ih =>
    intro n acc hacc c hc
    simp only [Nat.toDigitsCore] at hc
    have hd : ∀ d ∈ Nat.digitChar (n % 10) :: acc, d.isDigit = true := by
      intro d hdm
      rcases List.mem_cons.mp hdm with h | h
      · rw [h]
        exact digitChar_isDigit _ (Nat.mod_lt _ (by decide))
      · exact hacc d h
    split at hc
    · exact hd c hc
    · exact ih (n / 10) _ hd c hc

theorem natText_digits (n : Nat) : ∀ c ∈ natText n, c.isDigit = true := by
  intro c hc
  rw [natText, Nat.toDigits] at hc
  exact toDigitsCore_digits (n + 1) n [] (by simp) c hc

theorem classifyLine_tl (n : Nat) :
    classifyLine (tlText n) = .traceLine (digitsVal (natText n)) := by
  have hb : blankOrComment (tlText n) = false := by
    rw [show tlText n =
      '_' :: (("_trace_line__(").data ++ natText n ++ (")").data) from rfl]
    exact blankOrComment_underscore _
  have h1 : beginsWith (tlText n) (("__trace_line__(").data) = true := by
    rw [tlText_form]
    exact beginsWith_self_append _ _
  have h2 : (tlText n).drop (("__trace_line__(").data).length =
      natText n ++ (")").data := by
    rw [tlText_form]
    exact List.drop_left _ _
  have h3 : (natText n ++ (")").data).takeWhile Char.isDigit = natText n := by
    rw [takeWhile_append_of_all _ _
      (fun c hc => natText_digits n c hc)]
    simp [List.takeWhile]
  simp only [classifyLine, hb, Bool.false_eq_true, if_false, h1, if_true, h2, h3]

theorem classifyLine_tv (x : Line) (hall : ∀ c ∈ x, isIdentChar c = true) :
    classifyLine (tvText x) = .traceVar x := by
  have hb : blankOrComment (tvText x) = false := by
    rw [show tvText x =
      '_' :: (("_trace_var__(\"").data ++ x ++ ("\", ").data ++ x ++ (")").data) from rfl]
    exact blankOrComment_underscore _
  have h1 : beginsWith (tvText x) (("__trace_line__(").data) = false := by
    rw [tvText_form]
    rfl
  have h2 : beginsWith (tvText x) (("__trace_var__(\"").data) = true := by
    rw [tvText_form]
    exact beginsWith_self_append _ _
  have h3 : (tvText x).drop (("__trace_var__(\"").data).length =
      x ++ (("\", ").data ++ (x ++ (")").data)) := by
    rw [tvText_form]
    exact List.drop_left _ _
  have h4 : (x ++ (("\", ").data ++ (x ++ (")").data))).takeWhile
      (fun c => c ≠ '"') = x := by
    rw [takeWhile_append_of_all x _
      (fun c hc => decide_eq_true (identChar_ne_quote c (hall c hc)))]
    simp [List.takeWhile]
  simp only [classifyLine, hb, Bool.false_eq_true, if_false, h1, h2, if_true, h3, h4]

theorem classifyLine_snap (n : Nat) :
    classifyLine (snapText n) = .snapshot (digitsVal (natText n)) := by
  have hb : blankOrComment (snapText n) = false := by
    rw [show snapText n =
      '_' :: (("_memory_tracker__.take_snapshot(").data ++ natText n ++ (")").data) from rfl]
    exact blankOrComment_underscore _
  have h1 : beginsWith (snapText n) (("__trace_line__(").data) = false := by
    rw [snapText_form]
    rfl
  have h2 : beginsWith (snapText n) (("__trace_var__(\"").data) = false := by
    rw [snapText_form]
    rfl
  have h3 : beginsWith (snapText n)
      (("__memory_tracker__.take_snapshot(").data) = true := by
    rw [snapText_form]
    exact beginsWith_self_append _ _
  have h4 : (snapText n).drop
      (("__memory_tracker__.take_snapshot(").data).length =
      natText n ++ (")").data := by
    rw [snapText_form]
    exact List.drop_left _ _
  have h5 : (natText n ++ (")").data).takeWhile Char.isDigit = natText n := by
    rw [takeWhile_append_of_all _ _
      (fun c hc => natText_digits n c hc)]
    simp [List.takeWhile]
  simp only [classifyLine, hb, Bool.false_eq_true, if_false, h1, h2, h3, if_true,
    h4, h5]

theorem classifyLine_rm (x : Line) (hall : ∀ c ∈ x, isIdentChar c = true) :
    classifyLine (rmText x) = .recordMem x := by
  have hb : blankOrComment (rmText x) = false := by
    rw [show rmText x =
      '_' :: (("_record_memory__(\"").data ++ x ++ ("\", ").data ++ x ++ (")").data) from rfl]
    exact blankOrComment_underscore _
  have h1 : beginsWith (rmText x) (("__trace_line__(").data) = false := by
    rw [rmText_form]
    rfl
  have h2 : beginsWith (rmText x) (("__trace_var__(\"").data) = false := by
    rw [rmText_form]
    rfl
  have h3 : beginsWith (rmText x)
      (("__memory_tracker__.take_snapshot(").data) = false := by
    rw [rmText_form]
    rfl
  have h4 : beginsWith (rmText x) (("__record_memory__(\"").data) = true := by
    rw [rmText_form]
    exact beginsWith_self_append _ _
  have h5 : (rmText x).drop (("__record_memory__(\"").data).length =
      x ++ (("\", ").data ++ (x ++ (")").data)) := by
    rw [rmText_form]
    exact List.drop_left _ _
  have h6 : (x ++ (("\", ").data ++ (x ++ (")").data))).takeWhile
      (fun c => c ≠ '"') = x := by
    rw [takeWhile_append_of_all x _
      (fun c hc => decide_eq_true (identChar_ne_quote c (hall c hc)))]
    simp [List.takeWhile]
  simp only [classifyLine, hb, Bool.false_eq_true, if_false, h1, h2, h3, h4,
    if_true, h5, h6]

theorem isIdentifier_all_identChar (x : Line) (h : isIdentifier x = true) :
    ∀ c ∈ x, isIdentChar c = true := by
  cases x with
  | nil => simp [isIdentifier] at h
  | cons c cs =>
    simp only [isIdentifier, Bool.and_eq_true] at h
    exact List.all_eq_true.mp h.1.2

theorem execVis_tl_cons (n : Nat) (rest : List Line) (env : Env) (st : TState) :
    execVis (tlText n :: rest) env st =
      execVis rest env (st.traceLine (digitsVal (natText n))) := by
  rw [execVis, classifyLine_tl]

theorem execVis_tv_error (x : Line) (rest : List Line) (env : Env) (st : TState)
    (hall : ∀ c ∈ x, isIdentChar c = true)
    (hunbound : lookupEnv env x = Option.none) :
    execVis (tvText x :: rest) env st = .error (nameErrorText x) := by
  rw [execVis, classifyLine_tv x hall]
  simp only [hunbound]

theorem execMem_snap_cons (n : Nat) (rest : List Line) (env : Env) (st : MState) :
    execMem (snapText n :: rest) env st =
      execMem rest env (st.takeSnapshot (digitsVal (natText n))) := by
  rw [execMem, classifyLine_snap]

theorem execMem_rm_error (x : Line) (rest : List Line) (env : Env) (st : MState)
    (hall : ∀ c ∈ x, isIdentChar c = true)
    (hunbound : lookupEnv env x = Option.none) :
    execMem (rmText x :: rest) env st = .error (nameErrorText x) := by
  rw [execMem, classifyLine_rm x hall]
  simp only [hunbound]

/-! ## Claim C10 -/

/-- C10: for every straight-line source whose first non-blank,
non-comment line is a simple assignment `name = expr` to a name not
already bound in the supplied execution environment (and not colliding
with an injected hook name), the injected variable-recording call sits
before the assignment and references the name before the assignment has
run, so the instrumented execution raises
`NameError: name 'x' is not defined` and `visualize_execution`
(likewise `visualize_memory`) returns a single-element list containing
the error string instead of trace events. -/
theorem c10_record_before_assignment_raises (code : Line) (env : Env)
    (pre post : List Line) (l x : Line)
    (hsplit : splitLines code = pre ++ l :: post)
    (hpre : ∀ p ∈ pre, blankOrComment p = true)
    (hl : blankOrComment l = false)
    (ha : assignTarget l = some x)
    (hid : isIdentifier x = true)
    (hfrag : ∀ m ∈ splitLines code, fragmentLine m = true)
    (hunbound : lookupEnv env x = Option.none) :
    visualize_execution code env =
      [("Visualization error: ").data ++ nameErrorText x] ∧
    visualize_memory code env =
      [("Memory visualization error: ").data ++ nameErrorText x] := by
  have hall := isIdentifier_all_identChar x hid
  constructor
  · simp only [visualize_execution, hsplit, instrLines_append,
      instrLines_passthrough pre 1 hpre,
      instrLines_assign_cons l x post (1 + pre.length) hl ha]
    rw [execVis_skips_blank pre _ env initTState hpre,
      execVis_tl_cons, execVis_tv_error x _ env _ hall hunbound]
  · simp only [visualize_memory, hsplit, memInstrLines_append,
      memInstrLines_passthrough pre 1 hpre,
      memInstrLines_assign_cons l x post (1 + pre.length) hl ha]
    rw [List.append_assoc]
    simp only [List.cons_append]
    rw [execMem_skips_blank pre _ env initMState hpre,
      execMem_snap_cons, execMem_rm_error x _ env _ hall hunbound]

/-- C10, witness: the one-line program `x = 1` run in an empty
environment. -/
theorem c10_record_before_assignment_raises_witness :
    (splitLines ("x = 1").data = [] ++ ("x = 1").data :: [] ∧
     blankOrComment ("x = 1").data = false ∧
     assignTarget ("x = 1").data = some ("x").data ∧
     isIdentifier ("x").data = true ∧
     lookupEnv [] ("x").data = Option.none) ∧
    (visualize_execution ("x = 1").data [] =
      [("Visualization error: ").data ++ nameErrorText ("x").data] ∧
    visualize_memory ("x = 1").data [] =
      [("Memory visualization error: ").data ++ nameErrorText ("x").data]) :=
  ⟨⟨by decide, by decide, by decide, by decide, by decide⟩,
    c10_record_before_assignment_raises ("x = 1").data [] [] [] ("x = 1").data
      ("x").data (by decide) (by decide) (by decide) (by decide) (by decide)
      (by decide) (by decide)⟩

end DSA
